import Mathlib

/-!
# Verification of the ibkr-beancount-compare reconciliation pipeline

Shallow embedding of the repository's core functions and proofs of the
specification claims about them.  Python strings are modelled by Lean
`String` with explicit character-level helpers mirroring Python's `strip`,
`split`, slicing and indexing; `Decimal` amounts are modelled by `Rat`
(decimal values are rationals and Python's `Decimal` equality is numeric
equality); a raised Python exception is modelled by `Except PyErr`.
-/

set_option maxRecDepth 4000
set_option linter.unusedVariables false

/-- The Python exception kinds the embedded code can raise. -/
inductive PyErr where
  | valueError
  | typeError
  | indexError
  | assertionError
  | attributeError
  deriving DecidableEq, Repr

/-- Python whitespace characters relevant to `str.strip()` / `str.split()`
(ASCII range; the inputs of this program are ASCII). -/
def isPySpace (c : Char) : Bool :=
  c = ' ' || c = '\t' || c = '\n' || c = '\r' || c = Char.ofNat 11 || c = Char.ofNat 12

/-- Python `s.strip()`: remove leading and trailing whitespace. -/
def pyStrip (s : String) : String :=
  String.mk (((s.data.dropWhile isPySpace).reverse.dropWhile isPySpace).reverse)

/-- Helper for `pySplit`: accumulate the current token (reversed) while
scanning the character list. -/
def pySplitAux : List Char → List Char → List String
  | [], cur => if cur.isEmpty then [] else [String.mk cur.reverse]
  | c :: rest, cur =>
      if isPySpace c then
        if cur.isEmpty then pySplitAux rest []
        else String.mk cur.reverse :: pySplitAux rest []
      else pySplitAux rest (c :: cur)

/-- Python `s.split()` with no argument: split on whitespace runs, no empty
tokens. -/
def pySplit (s : String) : List String :=
  pySplitAux s.data []

/-- Python slice `s[a:b]` for `0 ≤ a ≤ b` (the only shape the source uses). -/
def pySlice (s : String) (a b : Nat) : String :=
  String.mk ((s.data.drop a).take (b - a))

/-- Python `s[i]` as an `Option`: `none` models the raised `IndexError`. -/
def pyCharAt (s : String) (i : Nat) : Option Char :=
  s.data.get? i

/-- Python `s.replace(",", "")` as used on the amount token. -/
def pyDropCommas (s : String) : String :=
  String.mk (s.data.filter (fun c => c ≠ ','))

/-- A calendar date (the model of Python `datetime.date`). -/
structure Date where
  year : Nat
  month : Nat
  day : Nat
  deriving DecidableEq, Repr

/-- Zero-pad the decimal rendering of `n` to width `w`
(Python `strftime` zero-pads `%Y`, `%m`, `%d`). -/
def zfill (w : Nat) (n : Nat) : String :=
  let s := toString n
  String.mk (List.replicate (w - s.length) '0') ++ s

/-- Rendering of `date.strftime("%Y-%m-%d")` (the `ISO_DATE_FORMAT_STR` format). -/
def fmtISO (d : Date) : String :=
  zfill 4 d.year ++ "-" ++ zfill 2 d.month ++ "-" ++ zfill 2 d.day

/-- The model of Python `datetime.datetime` (only `.date()` is used by the
embedded operations). -/
structure DateTime where
  date : Date
  hour : Nat
  minute : Nat
  second : Nat
  deriving DecidableEq, Repr

/-- The `model.CommonTransaction` dataclass (src/src/model.py): the common shape for broker
and ledger transactions.  All seven fields are required (the dataclass has no
defaults). -/
structure CommonTransaction where
  date : Date
  report_date : String
  symbol : String
  type : String
  amount : Rat
  currency : String
  description : String
  deriving DecidableEq, Repr

/-- The `model.IbCashTransaction` dataclass (src/src/model.py): a raw broker cash
transaction from the Flex report. -/
structure IbCashTransaction where
  symbol : String
  description : String
  report_date_str : String
  date_time_obj : DateTime
  amount : Rat
  currency : String
  type_code : String
  deriving DecidableEq, Repr

/-- The `symbols.SymbolMetadata` dataclass (src/src/symbols.py).  The Python field
`namespace` is a Lean keyword and is embedded as `nspace`. -/
structure SymbolMetadata where
  nspace : Option String
  symbol : String
  ledger_symbol : Option String
  currency : Option String
  updater : Option String
  updater_symbol : Option String
  ib_symbol : Option String
  remarks : Option String
  deriving DecidableEq, Repr

/-! ## Ledger register output parser (src/src/ledger_reg_output_parser.py) -/

/-- Loop body of `clean_up_register_output`: skip blank lines, skip lines
whose character at offset 50 is a space (raising `IndexError` when the line
is shorter), keep the remaining lines stripped. -/
def cleanUpAux : List String → List String → Except PyErr (List String)
  | [], acc => .ok acc
  | line :: rest, acc =>
      if pyStrip line = "" then cleanUpAux rest acc
      else
        match pyCharAt line 50 with
        | none => .error .indexError
        | some c =>
            if c = ' ' then cleanUpAux rest acc
            else cleanUpAux rest (acc ++ [pyStrip line])

/-- The source function `clean_up_register_output(lines)`. -/
def clean_up_register_output (lines : List String) : Except PyErr (List String) :=
  cleanUpAux lines []

/-- The source function `get_row_from_register_line(line, header)`.  It computes
`has_symbol = line[1] != " "`, the four column slices and the amount tokens,
and then executes `tx = CommonTransaction()`: the `CommonTransaction`
dataclass has seven required fields and no defaults, so this constructor
call raises `TypeError` before any field of the row is stored; the
assignments on lines 68-76 of the source are unreachable. -/
def get_row_from_register_line (line : String) (header : Option CommonTransaction) :
    Except PyErr CommonTransaction :=
  if pyStrip line = "" then
    -- `raise ValueError("The lines must be prepared by clean_up_register_output")`
    .error .valueError
  else
    match pyCharAt line 1 with
    | none => .error .indexError   -- `line[1]` on a one-character line
    | some _c =>
        -- date_str    = line[:10].strip()
        -- payee_str   = line[11:46].strip()
        -- account_str = line[46:85].strip()
        let amount_str := pyStrip (pySlice line 85 107)
        let amount_parts := pySplit amount_str
        if amount_parts.length > 2 then
          -- `raise ValueError("Cannot parse Ledger amount string: ...")`
          .error .valueError
        else if amount_parts.length ≠ 2 then
          -- `assert len(amount_parts) == 2`
          .error .assertionError
        else
          -- amount = amount_parts[0].replace(",", "")
          -- `tx = CommonTransaction()` raises TypeError: the dataclass
          -- requires date, report_date, symbol, type, amount, currency,
          -- description and none is passed.
          .error .typeError

/-- Loop body of `get_rows_from_register`: any per-line exception makes the
whole function return `[]` (the `except` branch), otherwise the row is
appended and becomes the carry-over context for the next line. -/
def getRowsAux : List String → Option CommonTransaction → List CommonTransaction →
    List CommonTransaction
  | [], _, acc => acc
  | line :: rest, prev, acc =>
      match get_row_from_register_line line prev with
      | .error _ => []
      | .ok tx => getRowsAux rest (some tx) (acc ++ [tx])

/-- The source function `get_rows_from_register(ledger_lines)`. -/
def get_rows_from_register (ledger_lines : List String) : List CommonTransaction :=
  getRowsAux ledger_lines none []

/-! ## Reconciliation matcher (src/main.py, `compare_txs_py`) -/

/-- The source function `get_comparison_date_py(common_tx, use_effective_date)`: the broker date
string used for matching — the effective date rendered in ISO form when the
flag is set, else the report-date string. -/
def get_comparison_date (common_tx : CommonTransaction) (use_effective_date : Bool) : String :=
  if use_effective_date then fmtISO common_tx.date else common_tx.report_date

/-- The five-way condition of the inner loop of `compare_txs_py`: ledger date
string equals the broker comparison date string, symbols equal, ledger amount
is the exact negation of the broker amount, currencies equal, types equal. -/
def tx_matches (use_effective_date : Bool) (ibtx ledger_tx : CommonTransaction) : Bool :=
  (fmtISO ledger_tx.date == get_comparison_date ibtx use_effective_date)
    && (ledger_tx.symbol == ibtx.symbol)
    && decide (ledger_tx.amount = -ibtx.amount)
    && (ledger_tx.currency == ibtx.currency)
    && (ledger_tx.type == ibtx.type)

/-- The `found_match` inner loop of `compare_txs_py`: scan the ledger
transactions and `break` at the first one satisfying `tx_matches`. -/
def found_match_loop (use_effective_date : Bool) (ibtx : CommonTransaction) :
    List CommonTransaction → Bool
  | [] => false
  | ledger_tx :: rest =>
      if tx_matches use_effective_date ibtx ledger_tx then true
      else found_match_loop use_effective_date ibtx rest

/-- The source function `compare_txs_py(ib_common_txs, ledger_common_txs, use_effective_date)`:
each broker transaction with no ledger match produces one `"New: {ibtx}"`
report line, in broker-transaction order.  The result is modelled as the
list of unmatched broker transactions; each element corresponds to exactly
one emitted report line. -/
def compare_txs : List CommonTransaction → List CommonTransaction → Bool →
    List CommonTransaction
  | [], _, _ => []
  | ibtx :: rest, ledger_common_txs, use_effective_date =>
      if found_match_loop use_effective_date ibtx ledger_common_txs then
        compare_txs rest ledger_common_txs use_effective_date
      else
        ibtx :: compare_txs rest ledger_common_txs use_effective_date

/-! ## Broker transaction normalizer (src/src/ibflex_reader.py) -/

/-- The source function `get_cash_action_string(ib_action_code)`: translate the broker's action
code to the canonical kind string; an unrecognized code raises `ValueError`
("Unrecognized cash action type"). -/
def get_cash_action_string (ib_action_code : String) : Except PyErr String :=
  if ib_action_code = "Deposits/Withdrawals" then .ok "DepositWithdraw"
  else if ib_action_code = "Broker Interest Paid" then .ok "BrokerIntPaid"
  else if ib_action_code = "Broker Interest Received" then .ok "BrokerIntRcvd"
  else if ib_action_code = "Withholding Tax" then .ok "WhTax"
  else if ib_action_code = "Bond Interest Received" then .ok "BondIntRcvd"
  else if ib_action_code = "Bond Interest Paid" then .ok "BondIntPaid"
  else if ib_action_code = "Other Fees" then .ok "Fees"
  else if ib_action_code = "Dividends" then .ok "Dividend"
  else if ib_action_code = "Payment In Lieu Of Dividends" then .ok "PaymentInLieu"
  else if ib_action_code = "Commission Adjustments" then .ok "CommAdj"
  else .error .valueError

/-- The source function `ib_cash_transaction_to_common(ib_tx)`: the `ValueError` of an
unrecognized type code propagates out of the constructor call. -/
def ib_cash_transaction_to_common (ib_tx : IbCashTransaction) :
    Except PyErr CommonTransaction :=
  match get_cash_action_string ib_tx.type_code with
  | .error e => .error e
  | .ok ty =>
      .ok { date := ib_tx.date_time_obj.date
            report_date := ib_tx.report_date_str
            symbol := ib_tx.symbol
            type := ty
            amount := ib_tx.amount
            currency := ib_tx.currency
            description := ib_tx.description }

/-- Python `dict` assignment `d[k] = v`: replace the value of an existing
key in place, else append the new pair. -/
def dictSet : List (String × String) → String → String → List (String × String)
  | [], k, v => [(k, v)]
  | (k', v') :: rest, k, v =>
      if k' = k then (k, v) :: rest else (k', v') :: dictSet rest k v

/-- Python `d[k]` / `k in d` lookup over the modelled dict. -/
def dictGet (d : List (String × String)) (key : String) : Option String :=
  (d.find? (fun p => p.1 == key)).map Prod.snd

/-- The `to_include_types` list of `convert_ib_txs_into_common`
(src/src/ibflex_reader.py line 68). -/
def to_include_types : List String :=
  ["Dividend", "WhTax", "PaymentInLieu"]

/-- Loop body of `convert_ib_txs_into_common`: convert each record (a raised
translation error propagates and aborts the whole loop), drop records whose
canonical type is not in `to_include_types`, rewrite the symbol through the
symbols map when present, and append. -/
def convertAux : List IbCashTransaction → List (String × String) →
    List CommonTransaction → Except PyErr (List CommonTransaction)
  | [], _, common_txs => .ok common_txs
  | ib_tx :: rest, symbols_map, common_txs =>
      match ib_cash_transaction_to_common ib_tx with
      | .error e => .error e
      | .ok common_tx =>
          if to_include_types.contains common_tx.type then
            let common_tx2 :=
              match dictGet symbols_map common_tx.symbol with
              | some ledger_sym => { common_tx with symbol := ledger_sym }
              | none => common_tx
            convertAux rest symbols_map (common_txs ++ [common_tx2])
          else
            -- `continue`: the record is skipped
            convertAux rest symbols_map common_txs

/-- The source function `convert_ib_txs_into_common(ib_tx_list, symbols_path_str)`.  Loading the
symbols map from the path (with the `FileNotFoundError` fallback to `{}`) is
file I/O at the boundary; the embedding takes the already-loaded map. -/
def convert_ib_txs_into_common (ib_tx_list : List IbCashTransaction)
    (symbols_map : List (String × String)) : Except PyErr (List CommonTransaction) :=
  convertAux ib_tx_list symbols_map []

/-! ## Symbol resolver (src/src/ibflex_reader.py, src/src/symbols.py) -/

/-- Python truthiness of an `Optional[str]`: `None` and `""` are falsy. -/
def optTruthy : Option String → Option String
  | some s => if s = "" then none else some s
  | none => none

/-- The source function `map_symbols(meta)`: resolve one symbol-table row to the
`(ib_symbol, ledger_symbol)` pair.  `if meta.ib_symbol:` is a truthiness
test; `if meta.namespace is None:` is an identity test, so an empty-string
namespace is accepted and produces `":" + symbol`. -/
def map_symbols (meta : SymbolMetadata) : Except PyErr (String × String) :=
  match optTruthy meta.ib_symbol with
  | some s =>
      let ledger_symbol :=
        match optTruthy meta.ledger_symbol with
        | some ls => ls
        | none => meta.symbol
      .ok (s, ledger_symbol)
  | none =>
      match meta.nspace with
      | none =>
          -- `raise ValueError(... missing namespace when ib_symbol is also missing)`
          .error .valueError
      | some ns =>
          let ledger_symbol :=
            match optTruthy meta.ledger_symbol with
            | some ls => ls
            | none => meta.symbol
          .ok (ns ++ ":" ++ meta.symbol, ledger_symbol)

/-- Loop body of `load_symbols`: apply `map_symbols` to each row, skip a row
whose resolution raises `ValueError`, and store the pair in the dict (an
existing key is overwritten). -/
def loadSymbolsAux : List SymbolMetadata → List (String × String) →
    List (String × String)
  | [], securities_map => securities_map
  | meta :: rest, securities_map =>
      match map_symbols meta with
      | .ok (ib_sym, ledger_sym) => loadSymbolsAux rest (dictSet securities_map ib_sym ledger_sym)
      | .error _ => loadSymbolsAux rest securities_map

/-- The source function `load_symbols(symbols_file_path_str)`: the path-existence check and the
CSV read (`read_symbols`) are file I/O at the boundary; the embedding takes
the list of metadata rows read from the file and builds the
broker-symbol → ledger-symbol dict. -/
def load_symbols (symbol_metadata_list : List SymbolMetadata) : List (String × String) :=
  loadSymbolsAux symbol_metadata_list []

/-- The resolvable rows of a metadata list, as the `(broker key, ledger
value)` pairs `map_symbols` produces, in row order. -/
def okPairs (symbol_metadata_list : List SymbolMetadata) : List (String × String) :=
  symbol_metadata_list.filterMap (fun meta =>
    match map_symbols meta with
    | .ok p => some p
    | .error _ => none)

/-- Modelled from the spec: the symbol-resolution contract of section 4.1,
stated in the spec's own order — broker key is the broker-native symbol when
present, else `"{namespace}:{canonical symbol}"` when a namespace is
present, else the row fails with `InvalidMapping`; the ledger value is the
ledger-native symbol when present, else the canonical symbol.  "Present" for
the string-valued symbol fields means a non-empty value (Python truthiness);
for the namespace it means any non-`None` value, matching the source's
`is None` test. -/
def resolve_spec (meta : SymbolMetadata) : Except PyErr (String × String) :=
  let ledger_value :=
    match optTruthy meta.ledger_symbol with
    | some ls => ls
    | none => meta.symbol
  match optTruthy meta.ib_symbol with
  | some broker_native => .ok (broker_native, ledger_value)
  | none =>
      match meta.nspace with
      | some ns => .ok (ns ++ ":" ++ meta.symbol, ledger_value)
      | none => .error .valueError

/-! ## Sample data for the concrete witnesses -/

/-- A broker-side withholding-tax transaction (spec section 8's scenario). -/
def ibTxSample : CommonTransaction :=
  { date := ⟨2023, 10, 5⟩
    report_date := "2023-10-05"
    symbol := "XYZ"
    type := "WhTax"
    amount := -15
    currency := "USD"
    description := "XYZ Stock Tax" }

/-- The offsetting ledger entry for `ibTxSample` (negated amount). -/
def ledgerTxSample : CommonTransaction :=
  { date := ⟨2023, 10, 5⟩
    report_date := "2023-10-05"
    symbol := "XYZ"
    type := "WhTax"
    amount := 15
    currency := "USD"
    description := "" }

/-- A ledger entry matching nothing in the samples (different symbol). -/
def ledgerTxOther : CommonTransaction :=
  { ledgerTxSample with symbol := "ABC", amount := 3 }

/-- A raw broker transaction with a recognized type code (`"Dividends"`). -/
def dividendIbTx : IbCashTransaction :=
  { symbol := "XYZ"
    description := "XYZ dividend"
    report_date_str := "2023-10-10"
    date_time_obj := ⟨⟨2023, 10, 10⟩, 0, 0, 0⟩
    amount := 100
    currency := "USD"
    type_code := "Dividends" }

/-- A raw broker transaction whose type code is not among the known codes. -/
def bogusIbTx : IbCashTransaction :=
  { dividendIbTx with description := "unknown kind", type_code := "Unknown Kind" }

/-- A raw broker transaction of a recognized but non-included kind. -/
def feesIbTx : IbCashTransaction :=
  { dividendIbTx with description := "fees", type_code := "Other Fees", amount := -2 }

/-- The record `dividendIbTx` converted to the common shape. -/
def dividendCommon : CommonTransaction :=
  { date := ⟨2023, 10, 10⟩
    report_date := "2023-10-10"
    symbol := "XYZ"
    type := "Dividend"
    amount := 100
    currency := "USD"
    description := "XYZ dividend" }

/-- The two physical lines of the repository's own distribution-report test
(tests/test_ledger_reg_output_parser.py), copied verbatim. -/
def distribution_report_lines : List String :=
  ["2022-12-15 TRET_AS Distribution                  Income:Investment:IB:TRET_AS                      -38.40 EUR           -38.40 EUR",
   "                                          Expenses:Investment:IB:Withholding Tax              5.77 EUR           -32.63 EUR"]

/-! ### Parser lemmas -/

/-- Every call of the per-line parser raises: each control path of
`get_row_from_register_line` ends in an exception, the successful
construction of a transaction being unreachable. -/
theorem get_row_from_register_line_isError (line : String) (header : Option CommonTransaction) :
    ∃ e, get_row_from_register_line line header = .error e := by
  unfold get_row_from_register_line
  split
  · exact ⟨_, rfl⟩
  · split
    · exact ⟨_, rfl⟩
    · dsimp only
      split
      · exact ⟨_, rfl⟩
      · split
        · exact ⟨_, rfl⟩
        · exact ⟨_, rfl⟩

/-- On any non-empty line list the register parser returns the empty list:
the first line's parse raises and the handler returns `[]`. -/
theorem get_rows_from_register_cons (line : String) (rest : List String) :
    get_rows_from_register (line :: rest) = [] := by
  obtain ⟨e, he⟩ := get_row_from_register_line_isError line none
  simp [get_rows_from_register, getRowsAux, he]

/-! ### Matcher lemmas -/

/-- The `break`-style inner loop decides exactly whether some ledger
transaction matches. -/
theorem found_match_loop_eq_any (use_effective_date : Bool) (ibtx : CommonTransaction) :
    ∀ ledger_common_txs, found_match_loop use_effective_date ibtx ledger_common_txs
      = ledger_common_txs.any (tx_matches use_effective_date ibtx) := by
  intro ledger
  induction ledger with
  | nil => rfl
  | cons ledger_tx rest ih =>
      by_cases h : tx_matches use_effective_date ibtx ledger_tx
        <;> simp [found_match_loop, h, ih]

/-- Boolean de Morgan over a list scan. -/
theorem all_not_eq_not_any {α : Type} (p : α → Bool) :
    ∀ l : List α, (l.all fun x => !p x) = !(l.any p) := by
  intro l
  induction l with
  | nil => rfl
  | cons x rest ih => by_cases h : p x <;> simp [h, ih]

/-- The outer loop keeps exactly the broker transactions with no ledger
match, in order. -/
theorem compare_txs_eq_filter (ledger_common_txs : List CommonTransaction)
    (use_effective_date : Bool) :
    ∀ ib_common_txs, compare_txs ib_common_txs ledger_common_txs use_effective_date
      = ib_common_txs.filter
          (fun ibtx => ledger_common_txs.all
            (fun ledger_tx => !(tx_matches use_effective_date ibtx ledger_tx))) := by
  intro ib
  induction ib with
  | nil => rfl
  | cons ibtx rest ih =>
      rw [List.filter_cons]
      rw [all_not_eq_not_any]
      by_cases h : (ledger_common_txs.any (tx_matches use_effective_date ibtx))
        <;> simp [compare_txs, found_match_loop_eq_any, h, ih, all_not_eq_not_any]

/-- Appending further ledger entries after a match never changes the scan. -/
theorem found_match_loop_stops_at_first (use_effective_date : Bool)
    (ibtx m : CommonTransaction) (hm : tx_matches use_effective_date ibtx m = true) :
    ∀ pre post, found_match_loop use_effective_date ibtx (pre ++ m :: post)
      = found_match_loop use_effective_date ibtx (pre ++ [m]) := by
  intro pre post
  induction pre with
  | nil => simp [found_match_loop, hm]
  | cons l pre' ih =>
      by_cases h : tx_matches use_effective_date ibtx l
        <;> simp [found_match_loop, h, ih]

/-- An empty ledger matches nothing: every broker transaction is kept. -/
theorem compare_txs_nil_ledger (use_effective_date : Bool) :
    ∀ ib_common_txs, compare_txs ib_common_txs [] use_effective_date = ib_common_txs := by
  intro ib
  induction ib with
  | nil => rfl
  | cons ibtx rest ih => simp [compare_txs, found_match_loop, ih]

/-! ## Claim theorems -/

/-- C1: the matcher emits a `New` report line for a broker transaction iff
no ledger transaction satisfies all five conditions (date string against the
flag-selected broker comparison date, symbol, exact negated amount, currency,
canonical type); the unmatched broker transactions are emitted in
broker-transaction order, and the inner scan over ledger transactions stops
at the first match (entries after it are never examined). -/
theorem matcher_new_iff_no_offsetting_match :
    ∀ (ib_common_txs ledger_common_txs : List CommonTransaction) (use_effective_date : Bool),
      compare_txs ib_common_txs ledger_common_txs use_effective_date
          = ib_common_txs.filter
              (fun ibtx => ledger_common_txs.all
                (fun ledger_tx => !(tx_matches use_effective_date ibtx ledger_tx)))
        ∧ ∀ (ibtx m : CommonTransaction) (pre post : List CommonTransaction),
            tx_matches use_effective_date ibtx m = true →
            found_match_loop use_effective_date ibtx (pre ++ m :: post)
              = found_match_loop use_effective_date ibtx (pre ++ [m]) := by
  intro ib ledger eff
  exact ⟨compare_txs_eq_filter ledger eff ib,
    fun ibtx m pre post hm => found_match_loop_stops_at_first eff ibtx m hm pre post⟩

/-- Witness for C1 at concrete transactions: the sample withholding-tax
broker transaction matches its offsetting ledger entry, the truncated and
full scans agree, and the matched pair yields no report line. -/
theorem matcher_new_iff_no_offsetting_match_witness :
    tx_matches false ibTxSample ledgerTxSample = true
      ∧ found_match_loop false ibTxSample
            ([ledgerTxOther] ++ ledgerTxSample :: [ledgerTxOther])
          = found_match_loop false ibTxSample ([ledgerTxOther] ++ [ledgerTxSample])
      ∧ compare_txs [ibTxSample] [ledgerTxOther, ledgerTxSample] false
          = [ibTxSample].filter
              (fun ibtx => [ledgerTxOther, ledgerTxSample].all
                (fun ledger_tx => !(tx_matches false ibtx ledger_tx))) :=
  ⟨by decide,
   (matcher_new_iff_no_offsetting_match [] [] false).2 ibTxSample ledgerTxSample
     [ledgerTxOther] [ledgerTxOther] (by decide),
   (matcher_new_iff_no_offsetting_match [ibTxSample] [ledgerTxOther, ledgerTxSample] false).1⟩

/-- C2: on every non-empty list of cleaned register lines the per-line parse
raises (the zero-argument `CommonTransaction()` call cannot succeed) and the
handler converts the exception into an empty overall result; with the ledger
side empty, every retained broker transaction is reported as new. -/
theorem register_parser_always_empty :
    (∀ ledger_lines : List String, ledger_lines ≠ [] →
        get_rows_from_register ledger_lines = [])
      ∧ ∀ (ib_common_txs : List CommonTransaction) (use_effective_date : Bool),
          compare_txs ib_common_txs [] use_effective_date = ib_common_txs := by
  refine ⟨?_, fun ib eff => compare_txs_nil_ledger eff ib⟩
  intro lines h
  cases lines with
  | nil => exact absurd rfl h
  | cons line rest => exact get_rows_from_register_cons line rest

/-- Witness for C2: the repository's own two-line distribution report parses
to no transactions, and a sample broker list against the resulting empty
ledger is reported new in full. -/
theorem register_parser_always_empty_witness :
    get_rows_from_register distribution_report_lines = []
      ∧ compare_txs [ibTxSample] [] false = [ibTxSample] :=
  ⟨register_parser_always_empty.1 distribution_report_lines (by decide),
   register_parser_always_empty.2 [ibTxSample] false⟩

/-- C9: the matcher never consumes a matched ledger entry — one ledger
transaction serves as the match for arbitrarily many identical broker
transactions, so duplicated broker records are silently treated as matched
(in particular two identical broker transactions against a single offsetting
ledger entry produce no `New` line). -/
theorem matcher_does_not_consume_matches :
    ∀ (b ledger_entry : CommonTransaction) (use_effective_date : Bool) (n : Nat),
      tx_matches use_effective_date b ledger_entry = true →
      compare_txs (List.replicate n b) [ledger_entry] use_effective_date = [] := by
  intro b ledger_entry eff n hm
  induction n with
  | zero => rfl
  | succ k ih =>
      rw [List.replicate_succ]
      simp [compare_txs, found_match_loop, hm, ih]

/-- Witness for C9: two copies of the sample broker transaction against the
single offsetting ledger entry produce no report line. -/
theorem matcher_does_not_consume_matches_witness :
    tx_matches false ibTxSample ledgerTxSample = true
      ∧ compare_txs [ibTxSample, ibTxSample] [ledgerTxSample] false = [] :=
  ⟨by decide,
   matcher_does_not_consume_matches ibTxSample ledgerTxSample false 2 (by decide)⟩

/-- The distribution-report lines after `clean_up_register_output`: both
rows are retained (character 50 is non-blank in each) and stripped. -/
def distribution_report_cleaned : List String :=
  ["2022-12-15 TRET_AS Distribution                  Income:Investment:IB:TRET_AS                      -38.40 EUR           -38.40 EUR",
   "Expenses:Investment:IB:Withholding Tax              5.77 EUR           -32.63 EUR"]

/-- A register line whose amount-with-currency field `[85:107]` splits into
three whitespace-delimited tokens. -/
def malformed_amount_line : String :=
  "2022-12-01 ACME Dividend                      Income:Investment:IB:ACME              12.00 USD 24.00"

/-- C3 (code bug): the spec, and the repository's own
`test_parse_distribution_report`, require a block of one header row plus one
continuation row to parse into exactly 2 records inheriting date and payee;
the code's `CommonTransaction()` zero-argument construction (and, for the
continuation row, the amount-field assertion on its 81-character stripped
form) raises on every line, so the parser yields 0 records.  This theorem
evaluates the embedded code at that failing input: cleanup retains both
rows, yet the parse is empty. -/
theorem register_parser_loses_distribution_report :
    clean_up_register_output distribution_report_lines = .ok distribution_report_cleaned
      ∧ get_rows_from_register distribution_report_cleaned = []
      ∧ distribution_report_cleaned.length = 2 := by
  refine ⟨by rfl, ?_, by decide⟩
  exact get_rows_from_register_cons _ _

/-- C4: whenever any line handed to the register parser has an
amount-with-currency field that does not split into exactly two tokens, the
whole parse aborts and returns the empty list rather than a partial one. -/
theorem register_parse_aborts_on_malformed_amount :
    ∀ ledger_lines : List String,
      (∃ line ∈ ledger_lines, (pySplit (pyStrip (pySlice line 85 107))).length ≠ 2) →
      get_rows_from_register ledger_lines = [] := by
  intro lines h
  cases lines with
  | nil =>
      obtain ⟨l, hl, _⟩ := h
      simp at hl
  | cons line rest => exact get_rows_from_register_cons line rest

/-- Witness for C4: a concrete register line whose amount field holds three
whitespace-delimited tokens makes the run return no transactions. -/
theorem register_parse_aborts_on_malformed_amount_witness :
    (pySplit (pyStrip (pySlice malformed_amount_line 85 107))).length = 3
      ∧ get_rows_from_register [malformed_amount_line] = [] :=
  ⟨by decide,
   register_parse_aborts_on_malformed_amount [malformed_amount_line] (by decide)⟩

/-- If some non-blank input line is shorter than 51 characters, the cleanup
loop hits `line[50]` on it and raises `IndexError` (every error exit of the
loop is that `IndexError`). -/
theorem cleanUpAux_error_of_short :
    ∀ (lines : List String) (acc : List String),
      (∃ l ∈ lines, pyStrip l ≠ "" ∧ l.length < 51) →
      cleanUpAux lines acc = .error .indexError := by
  intro lines
  induction lines with
  | nil =>
      intro acc h
      obtain ⟨l, hl, _⟩ := h
      simp at hl
  | cons line rest ih =>
      intro acc h
      by_cases h1 : pyStrip line = ""
      · have hrest : ∃ l ∈ rest, pyStrip l ≠ "" ∧ l.length < 51 := by
          obtain ⟨l, hl, hs, hlen⟩ := h
          rcases List.mem_cons.mp hl with rfl | hl'
          · exact absurd h1 hs
          · exact ⟨l, hl', hs, hlen⟩
        simpa [cleanUpAux, h1] using ih acc hrest
      · by_cases h2 : line.length < 51
        · have hnone : pyCharAt line 50 = none := by
            unfold pyCharAt
            exact List.get?_eq_none.mpr (Nat.lt_succ_iff.mp h2)
          simp [cleanUpAux, h1, hnone]
        · have h50 : 50 < line.data.length := Nat.lt_of_lt_of_le (by norm_num) (Nat.le_of_not_lt h2)
          obtain ⟨c, hc⟩ : ∃ c, pyCharAt line 50 = some c := by
            unfold pyCharAt
            cases hq : line.data.get? 50 with
            | none => exact absurd (List.get?_eq_none.mp hq) (Nat.not_le.mpr h50)
            | some c => exact ⟨c, rfl⟩
          have hrest : ∃ l ∈ rest, pyStrip l ≠ "" ∧ l.length < 51 := by
            obtain ⟨l, hl, hs, hlen⟩ := h
            rcases List.mem_cons.mp hl with rfl | hl'
            · exact absurd hlen h2
            · exact ⟨l, hl', hs, hlen⟩
          by_cases h3 : c = ' '
            <;> simpa [cleanUpAux, h1, hc, h3] using ih _ hrest

/-- When every non-blank line is at least 51 characters long, the cleanup
loop never raises. -/
theorem cleanUpAux_ok_of_wide :
    ∀ (lines : List String) (acc : List String),
      (∀ l ∈ lines, pyStrip l ≠ "" → 51 ≤ l.length) →
      ∃ out, cleanUpAux lines acc = .ok out := by
  intro lines
  induction lines with
  | nil => exact fun acc _ => ⟨acc, rfl⟩
  | cons line rest ih =>
      intro acc h
      have hrest : ∀ l ∈ rest, pyStrip l ≠ "" → 51 ≤ l.length :=
        fun l hl => h l (List.mem_cons_of_mem line hl)
      by_cases h1 : pyStrip line = ""
      · simpa [cleanUpAux, h1] using ih acc hrest
      · have h50 : 50 < line.data.length :=
          Nat.lt_of_lt_of_le (by norm_num) (h line (List.mem_cons_self line rest) h1)
        obtain ⟨c, hc⟩ : ∃ c, pyCharAt line 50 = some c := by
          unfold pyCharAt
          cases hq : line.data.get? 50 with
          | none => exact absurd (List.get?_eq_none.mp hq) (Nat.not_le.mpr h50)
          | some c => exact ⟨c, rfl⟩
        by_cases h3 : c = ' '
          <;> simpa [cleanUpAux, h1, hc, h3] using ih _ hrest

/-- Every line of the cleanup loop's output is either carried in from the
accumulator or the stripped form of some input line. -/
theorem cleanUpAux_mem :
    ∀ (lines : List String) (acc out : List String),
      cleanUpAux lines acc = .ok out →
      ∀ s ∈ out, s ∈ acc ∨ ∃ l ∈ lines, s = pyStrip l := by
  intro lines
  induction lines with
  | nil =>
      intro acc out hok s hs
      cases hok
      exact Or.inl hs
  | cons line rest ih =>
      intro acc out hok s hs
      by_cases h1 : pyStrip line = ""
      · rw [cleanUpAux, if_pos h1] at hok
        rcases ih acc out hok s hs with hacc | ⟨l, hl, hsl⟩
        · exact Or.inl hacc
        · exact Or.inr ⟨l, List.mem_cons_of_mem line hl, hsl⟩
      · rw [cleanUpAux, if_neg h1] at hok
        cases hc : pyCharAt line 50 with
        | none => rw [hc] at hok; cases hok
        | some c =>
            rw [hc] at hok
            dsimp only at hok
            by_cases h3 : c = ' '
            · rw [if_pos h3] at hok
              rcases ih acc out hok s hs with hacc | ⟨l, hl, hsl⟩
              · exact Or.inl hacc
              · exact Or.inr ⟨l, List.mem_cons_of_mem line hl, hsl⟩
            · rw [if_neg h3] at hok
              rcases ih _ out hok s hs with hacc | ⟨l, hl, hsl⟩
              · rcases List.mem_append.mp hacc with hacc' | hline
                · exact Or.inl hacc'
                · exact Or.inr ⟨line, List.mem_cons_self line rest,
                    (List.mem_singleton.mp hline)⟩
              · exact Or.inr ⟨l, List.mem_cons_of_mem line hl, hsl⟩

/-- C10: the cleanup step indexes character 50 of every line whose stripped
form is non-empty, so an input containing a non-blank line shorter than 51
characters raises an uncaught `IndexError`; under the precondition that
every non-blank line has length at least 51 the step is total; and the
retained lines are returned stripped of surrounding whitespace, not
verbatim. -/
theorem clean_up_indexes_char_50 :
    ∀ lines : List String,
      ((∃ l ∈ lines, pyStrip l ≠ "" ∧ l.length < 51) →
          clean_up_register_output lines = .error .indexError)
        ∧ ((∀ l ∈ lines, pyStrip l ≠ "" → 51 ≤ l.length) →
            ∃ out, clean_up_register_output lines = .ok out)
        ∧ ∀ out, clean_up_register_output lines = .ok out →
            ∀ s ∈ out, ∃ l ∈ lines, s = pyStrip l := by
  intro lines
  refine ⟨fun h => cleanUpAux_error_of_short lines [] h,
          fun h => cleanUpAux_ok_of_wide lines [] h,
          fun out hok s hs => ?_⟩
  rcases cleanUpAux_mem lines [] out hok s hs with hacc | h
  · simp at hacc
  · exact h

/-- Witness for C10: a 2-character non-blank line raises `IndexError`; the
distribution-report lines (both at least 51 characters) clean up without
raising, and each retained line is the stripped form of an input line. -/
theorem clean_up_indexes_char_50_witness :
    clean_up_register_output ["IB"] = .error .indexError
      ∧ (∃ out, clean_up_register_output distribution_report_lines = .ok out)
      ∧ ∀ s ∈ distribution_report_cleaned,
          ∃ l ∈ distribution_report_lines, s = pyStrip l :=
  ⟨(clean_up_indexes_char_50 ["IB"]).1 (by decide),
   (clean_up_indexes_char_50 distribution_report_lines).2.1 (by decide),
   (clean_up_indexes_char_50 distribution_report_lines).2.2
     distribution_report_cleaned (by rfl)⟩

/-! ### Normalizer lemmas -/

/-- If some record in the remaining batch has an unrecognized type code, the
conversion loop raises (whatever the accumulator holds). -/
theorem convertAux_error_of_unknown :
    ∀ (ib_tx_list : List IbCashTransaction) (symbols_map : List (String × String))
      (acc : List CommonTransaction),
      (∃ tx ∈ ib_tx_list, ∃ e, get_cash_action_string tx.type_code = .error e) →
      ∃ e, convertAux ib_tx_list symbols_map acc = .error e := by
  intro txs
  induction txs with
  | nil =>
      intro m acc h
      obtain ⟨tx, htx, _⟩ := h
      simp at htx
  | cons tx rest ih =>
      intro m acc h
      cases hg : get_cash_action_string tx.type_code with
      | error e =>
          have hcom : ib_cash_transaction_to_common tx = .error e := by
            simp [ib_cash_transaction_to_common, hg]
          exact ⟨e, by simp [convertAux, hcom]⟩
      | ok ty =>
          have hrest : ∃ t ∈ rest, ∃ e, get_cash_action_string t.type_code = .error e := by
            obtain ⟨t, ht, e, he⟩ := h
            rcases List.mem_cons.mp ht with rfl | ht'
            · rw [hg] at he
              exact Except.noConfusion he
            · exact ⟨t, ht', e, he⟩
          have hcom : ∃ c, ib_cash_transaction_to_common tx = .ok c := by
            simp [ib_cash_transaction_to_common, hg]
          obtain ⟨c, hc⟩ := hcom
          simp only [convertAux, hc]
          by_cases hinc : to_include_types.contains c.type
            <;> simp only [hinc, if_true, if_false, Bool.false_eq_true]
            <;> exact ih m _ hrest

/-- Everything the conversion loop appends has a canonical type in
`to_include_types`. -/
theorem convertAux_ok_types :
    ∀ (ib_tx_list : List IbCashTransaction) (symbols_map : List (String × String))
      (acc out : List CommonTransaction),
      convertAux ib_tx_list symbols_map acc = .ok out →
      (∀ c ∈ acc, c.type ∈ to_include_types) →
      ∀ c ∈ out, c.type ∈ to_include_types := by
  intro txs
  induction txs with
  | nil =>
      intro m acc out hok hacc
      cases hok
      exact hacc
  | cons tx rest ih =>
      intro m acc out hok hacc
      cases hg : ib_cash_transaction_to_common tx with
      | error e =>
          rw [convertAux, hg] at hok
          exact Except.noConfusion hok
      | ok c =>
          rw [convertAux, hg] at hok
          dsimp only at hok
          by_cases hinc : to_include_types.contains c.type
          · rw [if_pos hinc] at hok
            refine ih m _ out hok ?_
            intro x hx
            rcases List.mem_append.mp hx with hx' | hx2
            · exact hacc x hx'
            · have hctype : c.type ∈ to_include_types := by
                have := hinc
                simpa [List.contains, List.elem_iff] using this
              have hx2' := List.mem_singleton.mp hx2
              subst hx2'
              cases hd : dictGet m c.symbol with
              | some ledger_sym => simpa [hd] using hctype
              | none => simpa [hd] using hctype
          · rw [if_neg hinc] at hok
            exact ih m acc out hok hacc

/-- C5 counterexample: the claim says a record with an unknown broker type
code is dropped while the rest of the batch is normalized; on the concrete
batch `[bogusIbTx, dividendIbTx]` the embedded `convert_ib_txs_into_common`
instead propagates the `ValueError` of `get_cash_action_string` and returns
no transactions at all, although the remaining record alone normalizes
fine. -/
theorem normalizer_batch_aborts_counterexample :
    convert_ib_txs_into_common [bogusIbTx, dividendIbTx] [] = .error .valueError
      ∧ convert_ib_txs_into_common [dividendIbTx] [] = .ok [dividendCommon] :=
  ⟨by rfl, by rfl⟩

/-- C5 (amended): an unrecognized broker type code is fatal to the whole
batch — whenever any record's type code fails canonical-type translation,
`convert_ib_txs_into_common` raises and returns no transactions, and the
remaining records are not normalized. -/
theorem normalizer_unknown_type_aborts_batch :
    ∀ (ib_tx_list : List IbCashTransaction) (symbols_map : List (String × String)),
      (∃ tx ∈ ib_tx_list, ∃ e, get_cash_action_string tx.type_code = .error e) →
      ∃ e, convert_ib_txs_into_common ib_tx_list symbols_map = .error e :=
  fun ib_tx_list symbols_map h => convertAux_error_of_unknown ib_tx_list symbols_map [] h

/-- Witness for the amended C5 at the concrete two-record batch. -/
theorem normalizer_unknown_type_aborts_batch_witness :
    ∃ e, convert_ib_txs_into_common [bogusIbTx, dividendIbTx] [] = .error e :=
  normalizer_unknown_type_aborts_batch [bogusIbTx, dividendIbTx] []
    ⟨bogusIbTx, List.mem_cons_self bogusIbTx [dividendIbTx], PyErr.valueError, by rfl⟩

/-- C6: whatever batch and symbols map the normalizer is given, its output
contains only transactions whose canonical type is in
`to_include_types = [Dividend, WhTax, PaymentInLieu]`; a record of any other
canonical kind never appears. -/
theorem normalizer_output_only_included_types :
    ∀ (ib_tx_list : List IbCashTransaction) (symbols_map : List (String × String))
      (out : List CommonTransaction),
      convert_ib_txs_into_common ib_tx_list symbols_map = .ok out →
      ∀ common_tx ∈ out, common_tx.type ∈ to_include_types :=
  fun ib_tx_list symbols_map out hok =>
    convertAux_ok_types ib_tx_list symbols_map [] out hok (by simp)

/-- Witness for C6: a dividend plus an `Other Fees` record normalize to just
the dividend, whose type is in the included set. -/
theorem normalizer_output_only_included_types_witness :
    convert_ib_txs_into_common [dividendIbTx, feesIbTx] [] = .ok [dividendCommon]
      ∧ ∀ common_tx ∈ [dividendCommon], common_tx.type ∈ to_include_types :=
  ⟨by rfl,
   normalizer_output_only_included_types [dividendIbTx, feesIbTx] [] [dividendCommon]
     (by rfl)⟩

/-- C7: `map_symbols` meets the spec's per-row resolution contract
(`resolve_spec`): broker key from the broker-native symbol when present,
else from the namespace-qualified canonical symbol, `InvalidMapping` exactly
when both are absent, and the ledger value from the ledger-native symbol
when present, else the canonical symbol. -/
theorem map_symbols_meets_resolution_contract :
    ∀ meta : SymbolMetadata, map_symbols meta = resolve_spec meta := by
  intro meta
  cases h1 : optTruthy meta.ib_symbol
    <;> cases h2 : meta.nspace
    <;> simp [map_symbols, resolve_spec, h1, h2]

/-! ### Symbol-table lemmas -/

/-- Lookup on a dict cell: the head key shadows the tail. -/
theorem dictGet_cons (k' v' : String) (rest : List (String × String)) (key : String) :
    dictGet ((k', v') :: rest) key = if k' = key then some v' else dictGet rest key := by
  by_cases h : k' = key
  · simp [dictGet, List.find?, h]
  · have hne : (k' == key) = false := beq_eq_false_iff_ne.mpr h
    simp [dictGet, List.find?, hne, h]

/-- Dict assignment then lookup: the assigned key reads back the new value,
any other key is unaffected. -/
theorem dictGet_dictSet :
    ∀ (d : List (String × String)) (k v key : String),
      dictGet (dictSet d k v) key = if key = k then some v else dictGet d key := by
  intro d
  induction d with
  | nil =>
      intro k v key
      rw [show dictSet [] k v = [(k, v)] from rfl, dictGet_cons]
      by_cases h : key = k
      · rw [if_pos h.symm, if_pos h]
      · rw [if_neg (fun hh => h hh.symm), if_neg h]
  | cons p rest ih =>
      intro k v key
      obtain ⟨k', v'⟩ := p
      by_cases h : k' = k
      · subst h
        rw [show dictSet ((k', v') :: rest) k' v = (k', v) :: rest by simp [dictSet]]
        rw [dictGet_cons, dictGet_cons]
        by_cases hk : k' = key
        · rw [if_pos hk, if_pos hk.symm]
        · rw [if_neg hk, if_neg (fun hh => hk hh.symm), if_neg hk]
      · rw [show dictSet ((k', v') :: rest) k v = (k', v') :: dictSet rest k v by
            simp [dictSet, h]]
        rw [dictGet_cons, dictGet_cons, ih]
        by_cases hk : k' = key
        · subst hk
          rw [if_pos rfl, if_neg (fun hh : k' = k => h hh), if_pos rfl]
        · by_cases hkk : key = k
          · rw [if_neg hk, if_pos hkk, if_pos hkk]
          · rw [if_neg hk, if_neg hkk, if_neg hkk, if_neg hk]

/-- Lookup after the symbol-loading loop: rows that fail to resolve are
skipped, and among the resolvable rows the last one with the queried broker
key provides the value, on top of whatever the accumulator held. -/
theorem loadSymbolsAux_lookup :
    ∀ (metas : List SymbolMetadata) (acc : List (String × String)) (key : String),
      dictGet (loadSymbolsAux metas acc) key =
        match (okPairs metas).reverse.find? (fun p => p.1 == key) with
        | some p => some p.2
        | none => dictGet acc key := by
  intro metas
  induction metas with
  | nil => intro acc key; simp [loadSymbolsAux, okPairs]
  | cons meta rest ih =>
      intro acc key
      cases hm : map_symbols meta with
      | error e =>
          have hok : okPairs (meta :: rest) = okPairs rest := by
            simp [okPairs, List.filterMap_cons, hm]
          rw [show loadSymbolsAux (meta :: rest) acc = loadSymbolsAux rest acc by
                simp [loadSymbolsAux, hm]]
          rw [hok]
          exact ih acc key
      | ok pr =>
          obtain ⟨i, l⟩ := pr
          have hok : okPairs (meta :: rest) = (i, l) :: okPairs rest := by
            simp [okPairs, List.filterMap_cons, hm]
          rw [show loadSymbolsAux (meta :: rest) acc = loadSymbolsAux rest (dictSet acc i l) by
                simp [loadSymbolsAux, hm]]
          rw [ih (dictSet acc i l) key, hok, List.reverse_cons, List.find?_append]
          cases hf : (okPairs rest).reverse.find? (fun p => p.1 == key) with
          | some p => simp [hf]
          | none =>
              simp only [hf, Option.none_orElse]
              rw [dictGet_dictSet]
              by_cases hk : i = key
              · have : ((i, l).1 == key) = true := by simp [hk]
                simp [List.find?, this, if_pos hk.symm]
              · have : ((i, l).1 == key) = false := beq_eq_false_iff_ne.mpr hk
                simp [List.find?, this]
                intro hh
                exact absurd hh.symm hk

/-- C8: building the symbol table resolves each row independently — a row
`map_symbols` rejects is skipped while construction of the table (a total
function of the row list) succeeds for the rest — and, for every broker key,
the table holds the ledger value of the *last* resolvable row with that key:
last write wins on duplicate keys, and every resolvable row's key is
present. -/
theorem load_symbols_per_row_independent_last_write_wins :
    ∀ (symbol_metadata_list : List SymbolMetadata) (key : String),
      dictGet (load_symbols symbol_metadata_list) key
        = ((okPairs symbol_metadata_list).reverse.find?
            (fun p => p.1 == key)).map Prod.snd := by
  intro metas key
  rw [show load_symbols metas = loadSymbolsAux metas [] from rfl, loadSymbolsAux_lookup]
  cases hf : (okPairs metas).reverse.find? (fun p => p.1 == key) with
  | some p => simp
  | none => simp [dictGet, List.find?]
